import Mathlib

/-!
Shallow embedding of `src/executor/create_executor.cpp` (namespace `nstore`),
the DDL execution engine realizing CREATE TABLE / CREATE DATABASE /
CREATE INDEX.  Pointer-manipulating C++ is rendered as explicit state
passing over value types; a null-pointer dereference is rendered as the
distinguished outcome `ExecResult.ub`.  Catalog container operations whose
sources are not part of the repository snapshot (`catalog/table.h`,
`catalog/database.h`, `catalog/catalog.h`, `common/types.h`,
`parser/statement_create.h`) are modelled from the specification; each such
definition carries a doc comment starting `Modelled from the spec:`.
-/

set_option autoImplicit false

namespace NStore

/-- Modelled from the spec: the value types of `common/types.h` (not in src/):
fixed-width types plus the variable-length VARCHAR/VARBINARY; CHAR is a
fixed-width type whose general type width is overridden to 1 by the executor. -/
inductive ValueType
| INTEGER
| DOUBLE
| CHAR
| VARCHAR
| VARBINARY
deriving DecidableEq

/-- Modelled from the spec: `GetTypeSize` of `common/types.h` (not in src/),
the type-determined fixed width of each value type. -/
def GetTypeSize : ValueType → Nat
| .INTEGER => 4
| .DOUBLE => 8
| .CHAR => 4
| .VARCHAR => 0
| .VARBINARY => 0

/-- Column-definition kinds of `parser::ColumnDefinition` (header not in src/):
the PRIMARY / FOREIGN markers plus the normal data types. -/
inductive ColDefType
| PRIMARY
| FOREIGN
| CHAR
| INT
| DOUBLE
| VARCHAR
| VARBINARY
deriving DecidableEq

/-- Modelled from the spec: `parser::ColumnDefinition::GetValueType` (header
not in src/), mapping a declared data type to its value type; CHAR maps to
the fixed-width CHAR value type. -/
def GetValueType : ColDefType → ValueType
| .CHAR => .CHAR
| .INT => .INTEGER
| .DOUBLE => .DOUBLE
| .VARCHAR => .VARCHAR
| .VARBINARY => .VARBINARY
| .PRIMARY => .INTEGER
| .FOREIGN => .INTEGER

/-- `catalog::Column`: name, value type, zero-based offset, physical width,
not-null flag. -/
structure Column where
  name : String
  type : ValueType
  offset : Nat
  len : Nat
  not_null : Bool
deriving DecidableEq

/-- Opaque physical index object produced by the index factory. -/
inductive PhysIndex
| mk
deriving DecidableEq

/-- `catalog::Index`: the logical index.  `keyColumns` holds the raw column
pointers pushed by the executor (a pointer may be null, hence `Option`);
`physicalIndex` is the attached physical handle, null until set. -/
structure Index where
  name : String
  unique : Bool
  keyColumns : List (Option Column)
  physicalIndex : Option PhysIndex
deriving DecidableEq

inductive ConstraintType
| primary
| foreign
deriving DecidableEq

/-- `catalog::Constraint`: primary constraints carry an index, foreign
constraints carry the sink table (a possibly-null pointer, modelled by the
sink table's name) and resolved source/sink column pointers. -/
structure Constraint where
  name : String
  ctype : ConstraintType
  index : Option Index
  sinkTable : Option String
  sourceColumns : List (Option Column)
  sinkColumns : List (Option Column)
deriving DecidableEq

/-- `catalog::ColumnInfo`: physical column descriptor
(type, width, name, allow-null, variable-length flag). -/
structure ColumnInfo where
  type : ValueType
  len : Nat
  name : String
  allowNull : Bool
  varlen : Bool
deriving DecidableEq

/-- `catalog::Schema`: ordered physical column descriptors. -/
structure Schema where
  columns : List ColumnInfo
deriving DecidableEq

/-- Opaque physical table bound to a schema, from `storage::TableFactory`. -/
structure PhysTable where
  schema : Schema
deriving DecidableEq

/-- `catalog::Table`: logical table owning columns, constraints, indexes and
an optional physical table handle. -/
structure Table where
  name : String
  columns : List Column
  constraints : List Constraint
  indexes : List Index
  physicalTable : Option PhysTable
deriving DecidableEq

/-- Modelled from the spec: `catalog::Table::GetColumn` (catalog/table.h not
in src/) — lookup of a column by name. -/
def Table.GetColumn (t : Table) (n : String) : Option Column :=
  t.columns.find? (fun c => c.name == n)

/-- Modelled from the spec: `catalog::Table::GetIndex` (catalog/table.h not
in src/) — an index is retrievable from its table's index set by name. -/
def Table.GetIndex (t : Table) (n : String) : Option Index :=
  t.indexes.find? (fun i => i.name == n)

/-- Modelled from the spec: `catalog::Table::AddColumn` (catalog/table.h not
in src/) — column names are pairwise distinct within a table, so insertion
fails on a duplicate name and otherwise appends. -/
def Table.AddColumn (t : Table) (c : Column) : Bool × Table :=
  if t.columns.any (fun c0 => c0.name == c.name) then (false, t)
  else (true, { t with columns := t.columns ++ [c] })

/-- Modelled from the spec: `catalog::Table::AddConstraint` (catalog/table.h
not in src/) — constraint names are unique within a table. -/
def Table.AddConstraint (t : Table) (c : Constraint) : Bool × Table :=
  if t.constraints.any (fun c0 => c0.name == c.name) then (false, t)
  else (true, { t with constraints := t.constraints ++ [c] })

/-- Modelled from the spec: `catalog::Table::AddIndex` (catalog/table.h not
in src/) — index names are unique within a table. -/
def Table.AddIndex (t : Table) (i : Index) : Bool × Table :=
  if t.indexes.any (fun i0 => i0.name == i.name) then (false, t)
  else (true, { t with indexes := t.indexes ++ [i] })

/-- `index->SetPhysicalIndex(p)` after the index was registered: the C++
mutates the registered object through the aliasing pointer, so the stored
index with the given name is updated in place. -/
def Table.SetIndexPhysical (t : Table) (n : String) (p : Option PhysIndex) : Table :=
  { t with indexes := t.indexes.map (fun i => if i.name == n then { i with physicalIndex := p } else i) }

/-- `catalog::Database`: named container of tables. -/
structure Database where
  name : String
  tables : List Table
deriving DecidableEq

/-- Modelled from the spec: `catalog::Database::GetTable` (catalog/database.h
not in src/) — lookup of a table by name. -/
def Database.GetTable (d : Database) (n : String) : Option Table :=
  d.tables.find? (fun t => t.name == n)

/-- Modelled from the spec: `catalog::Database::AddTable` (catalog/database.h
not in src/) — table names are unique within a database, so insertion fails
on a duplicate name and otherwise appends. -/
def Database.AddTable (d : Database) (t : Table) : Bool × Database :=
  if d.tables.any (fun t0 => t0.name == t.name) then (false, d)
  else (true, { d with tables := d.tables ++ [t] })

/-- In-place mutation of a table reached through an aliasing pointer:
the stored table with the same name is replaced. -/
def Database.SetTable (d : Database) (t : Table) : Database :=
  { d with tables := d.tables.map (fun t0 => if t0.name == t.name then t else t0) }

/-- `catalog::Catalog`: process-wide directory of databases. -/
structure Catalog where
  databases : List Database
deriving DecidableEq

/-- Modelled from the spec: `catalog::Catalog::GetDatabase` (catalog/catalog.h
not in src/) — lookup of a database by name. -/
def Catalog.GetDatabase (c : Catalog) (n : String) : Option Database :=
  c.databases.find? (fun d => d.name == n)

/-- Modelled from the spec: `catalog::Catalog::AddDatabase` (catalog/catalog.h
not in src/) — database names are unique within the registry, so insertion
fails on a duplicate name and otherwise appends. -/
def Catalog.AddDatabase (c : Catalog) (d : Database) : Bool × Catalog :=
  if c.databases.any (fun d0 => d0.name == d.name) then (false, c)
  else (true, { c with databases := c.databases ++ [d] })

/-- In-place mutation of a database reached through an aliasing pointer:
the stored database with the same name is replaced. -/
def Catalog.SetDatabase (c : Catalog) (d : Database) : Catalog :=
  { c with databases := c.databases.map (fun d0 => if d0.name == d.name then d else d0) }

/-- Modelled from the spec: `Schema::CopySchema` (catalog/schema.h not in
src/) — projection of a schema onto the given column offsets, preserving the
declared key order. -/
def Schema.CopySchema (s : Schema) (attrs : List Nat) : Schema :=
  ⟨attrs.filterMap (fun i => s.columns[i]?)⟩

def DEFAULT_DB_NAME : String := "default_database"

/-- `parser::CreateStatement::CreateType`. -/
inductive CreateType
| kTable
| kDatabase
| kIndex
deriving DecidableEq

/-- `parser::ColumnDefinition` (header not in src/): a column-definition
entry of a CREATE TABLE statement.  The nullable C++ list pointers
`primary_key`, `foreign_key_source`, `foreign_key_sink` are `Option`s.
For a FOREIGN marker, `name` is the sink table's name. -/
structure ColumnDefinition where
  name : String
  type : ColDefType
  varlen : Nat
  not_null : Bool
  unique : Bool
  primary_key : Option (List String)
  foreign_key_source : Option (List String)
  foreign_key_sink : Option (List String)
deriving DecidableEq

/-- `parser::CreateStatement` (header not in src/): kind, target name,
existence-guard flag, column definitions, and the CREATE INDEX fields
(table name, nullable key-attribute list, uniqueness flag). -/
structure CreateStatement where
  type : CreateType
  name : String
  if_not_exists : Bool
  columns : List ColumnDefinition
  table_name : String
  index_attrs : Option (List String)
  unique : Bool
deriving DecidableEq

/-- Outcome of `CreateExecutor::Execute`: a returned boolean, or undefined
behavior (a null-pointer dereference reached in the C++). -/
inductive ExecResult
| ok (b : Bool)
| ub
deriving DecidableEq

/-- Validation of one column definition (lines 51-110): PRIMARY keys must be
among the normal-column names collected so far (when the key list is
present); FOREIGN source names likewise, and each present sink name requires
the sink table to exist and contain that column; a normal column is rejected
on a duplicate name and otherwise appends its name to the collected list. -/
def validateDef (db : Database) (cols : List String) (col : ColumnDefinition) : Option (List String) :=
  match col.type with
  | .PRIMARY =>
    match col.primary_key with
    | some keys => if keys.all (fun k => cols.contains k) then some cols else none
    | none => some cols
  | .FOREIGN =>
    let srcOk : Bool :=
      match col.foreign_key_source with
      | some keys => keys.all (fun k => cols.contains k)
      | none => true
    let sinkOk : Bool :=
      match col.foreign_key_sink with
      | some keys => keys.all (fun k =>
          match db.GetTable col.name with
          | none => false
          | some ft => (ft.GetColumn k).isSome)
      | none => true
    if srcOk && sinkOk then some cols else none
  | _ =>
    if cols.contains col.name then none
    else some (cols ++ [col.name])

/-- The validation pass over the whole column-definition list, threading the
collected normal-column names; `none` is rejection (Execute returns false). -/
def validateDefs (db : Database) (cols : List String) : List ColumnDefinition → Option (List String)
| [] => some cols
| col :: rest =>
  match validateDef db cols col with
  | none => none
  | some cols2 => validateDefs db cols2 rest

/-- Mutable state of the construction pass (lines 122-130): the table under
construction, the physical column descriptors, and the offset and id
counters. -/
structure BuildState where
  table : Table
  physical_columns : List ColumnInfo
  offset : Nat
  constraint_id : Nat
  index_id : Nat
deriving DecidableEq

/-- Result of one construction step: continue, abandon the table returning
false, or a null-pointer dereference. -/
inductive StepRes
| next (s : BuildState)
| fail
| ub
deriving DecidableEq

/-- The normal-column construction (lines 221-233): width starts as the
type-determined size, is overridden to 1 for the CHAR kind, then overridden
to the declared variable length for VARCHAR/VARBINARY value types. -/
def columnOf (off : Nat) (col : ColumnDefinition) : Column :=
  let type := GetValueType col.type
  let col_len0 := GetTypeSize type
  let col_len1 := if col.type == ColDefType.CHAR then 1 else col_len0
  let col_len := if type == ValueType.VARCHAR || type == ValueType.VARBINARY then col.varlen else col_len1
  ⟨col.name, type, off, col_len, col.not_null⟩

/-- The parallel physical-column descriptor (lines 235-239). -/
def columnInfoOf (col : ColumnDefinition) : ColumnInfo :=
  let type := GetValueType col.type
  let col_len0 := GetTypeSize type
  let col_len1 := if col.type == ColDefType.CHAR then 1 else col_len0
  let col_len := if type == ValueType.VARCHAR || type == ValueType.VARBINARY then col.varlen else col_len1
  ⟨type, col_len, col.name, !col.not_null, col.varlen != 0⟩

/-- Dereference of the (possibly null) `foreign_table` pointer once per sink
key (line 198): an empty sink list performs no dereference. -/
def sinkColumnsOf : Option Table → List String → Option (List (Option Column))
| _, [] => some []
| none, _ :: _ => none
| some ft, k :: rest =>
  match sinkColumnsOf (some ft) rest with
  | none => none
  | some l => some (ft.GetColumn k :: l)

/-- One step of the construction pass (lines 132-250), dispatching on the
definition kind.  A null `primary_key` / `foreign_key_source` /
`foreign_key_sink` list is dereferenced unconditionally here (`.ub`). -/
def buildDef (db : Database) (s : BuildState) (col : ColumnDefinition) : StepRes :=
  match col.type with
  | .PRIMARY =>
    match col.primary_key with
    | none => .ub
    | some keys =>
      let constraint_name := "PK_" ++ toString s.constraint_id
      let index_name := "INDEX_" ++ toString s.index_id
      let columns := keys.map (fun k => s.table.GetColumn k)
      let index : Index := ⟨index_name, col.unique, columns, none⟩
      let constraint : Constraint := ⟨constraint_name, .primary, some index, none, columns, []⟩
      match s.table.AddConstraint constraint with
      | (false, _) => .fail
      | (true, t1) =>
        match t1.AddIndex index with
        | (false, _) => .fail
        | (true, t2) =>
          .next { s with table := t2, constraint_id := s.constraint_id + 1, index_id := s.index_id + 1 }
  | .FOREIGN =>
    match col.foreign_key_source with
    | none => .ub
    | some srcKeys =>
      match col.foreign_key_sink with
      | none => .ub
      | some sinkKeys =>
        let constraint_name := "FK_" ++ toString s.constraint_id
        let ft := db.GetTable col.name
        let source_columns := srcKeys.map (fun k => s.table.GetColumn k)
        match sinkColumnsOf ft sinkKeys with
        | none => .ub
        | some sink_columns =>
          let constraint : Constraint :=
            ⟨constraint_name, .foreign, none, ft.map (fun t => t.name), source_columns, sink_columns⟩
          match s.table.AddConstraint constraint with
          | (false, _) => .fail
          | (true, t1) => .next { s with table := t1, constraint_id := s.constraint_id + 1 }
  | _ =>
    let column := columnOf s.offset col
    let physical_column := columnInfoOf col
    match s.table.AddColumn column with
    | (false, _) => .fail
    | (true, t1) =>
      .next { s with table := t1, physical_columns := s.physical_columns ++ [physical_column], offset := s.offset + 1 }

/-- The construction pass over the whole column-definition list. -/
def buildDefs (db : Database) (s : BuildState) : List ColumnDefinition → StepRes
| [] => .next s
| col :: rest =>
  match buildDef db s col with
  | .next s2 => buildDefs db s2 rest
  | .fail => .fail
  | .ub => .ub

/-- Initial construction state (lines 122-130): a fresh empty table with the
statement's name, no physical columns, all counters zero. -/
def initState (n : String) : BuildState :=
  ⟨⟨n, [], [], [], none⟩, [], 0, 0, 0⟩

/-- The `kTable` branch (lines 44-277): validation pass, existence guard,
construction pass, physical table creation, locked `AddTable`. -/
def executeTable (c : Catalog) (db : Database) (stmt : CreateStatement) : ExecResult × Catalog :=
  match validateDefs db [] stmt.columns with
  | none => (.ok false, c)
  | some _ =>
    if (db.GetTable stmt.name).isSome && stmt.if_not_exists then (.ok false, c)
    else
      match buildDefs db (initState stmt.name) stmt.columns with
      | .fail => (.ok false, c)
      | .ub => (.ub, c)
      | .next s =>
        let schema : Schema := ⟨s.physical_columns⟩
        let physical_table : PhysTable := ⟨schema⟩
        let table : Table := { s.table with physicalTable := some physical_table }
        match db.AddTable table with
        | (false, _) => (.ok false, c)
        | (true, db2) => (.ok true, c.SetDatabase db2)

/-- The `kDatabase` branch (lines 284-312): unlocked existence check, then
locked `AddDatabase`. -/
def executeDatabase (c : Catalog) (stmt : CreateStatement) : ExecResult × Catalog :=
  match c.GetDatabase stmt.name with
  | some _ => (.ok false, c)
  | none =>
    let database : Database := ⟨stmt.name, []⟩
    match c.AddDatabase database with
    | (false, _) => (.ok false, c)
    | (true, c2) => (.ok true, c2)

/-- Resolution of the key attributes of CREATE INDEX (lines 336-350) into
offsets and column pointers; `none` when some attribute is not a column of
the target table. -/
def resolveKeys (t : Table) : List String → Option (List Nat × List Column)
| [] => some ([], [])
| k :: rest =>
  match t.GetColumn k with
  | none => none
  | some col =>
    match resolveKeys t rest with
    | none => none
    | some (key_attrs, key_columns) => some (col.offset :: key_attrs, col :: key_columns)

/-- The `kIndex` branch (lines 319-394): resolve the target table and key
attributes, project the key schema, construct the logical index, locked
`AddIndex`, then attach the physical index handle — which the code leaves
null (the factory call at line 366 is commented out). -/
def executeIndex (c : Catalog) (db : Database) (stmt : CreateStatement) : ExecResult × Catalog :=
  match db.GetTable stmt.table_name with
  | none => (.ok false, c)
  | some table =>
    match stmt.index_attrs with
    | none => (.ok false, c)
    | some attrs =>
      match resolveKeys table attrs with
      | none => (.ok false, c)
      | some (key_attrs, key_columns) =>
        match table.physicalTable with
        | none => (.ub, c)
        | some physical_table =>
          let tuple_schema := physical_table.schema
          let _key_schema := Schema.CopySchema tuple_schema key_attrs
          let physical_index : Option PhysIndex := none
          let index : Index := ⟨stmt.name, stmt.unique, key_columns.map some, none⟩
          match table.AddIndex index with
          | (false, _) => (.ok false, c)
          | (true, table2) =>
            let table3 := table2.SetIndexPhysical stmt.name physical_index
            (.ok true, c.SetDatabase (db.SetTable table3))

/-- `CreateExecutor::Execute` (lines 29-404): fetch the default database
(the `assert(db)` on a null pointer is rendered `.ub`) and dispatch on the
statement kind. -/
def Execute (c : Catalog) (stmt : CreateStatement) : ExecResult × Catalog :=
  match c.GetDatabase DEFAULT_DB_NAME with
  | none => (.ub, c)
  | some db =>
    match stmt.type with
    | .kTable => executeTable c db stmt
    | .kDatabase => executeDatabase c stmt
    | .kIndex => executeIndex c db stmt

/-- Catalog-registry events of the `kDatabase` branch, in program order. -/
inductive DbEvent
| getDatabase (n : String)
| lock
| addDatabase (n : String)
| unlock
deriving DecidableEq

/-- The sequence of catalog-registry operations performed by the `kDatabase`
branch (lines 284-312), in program order: the existence check at line 286
runs before the lock at line 297, and the name-exists branch calls `Unlock`
at line 289 without ever having locked. -/
def createDatabaseTrace (c : Catalog) (n : String) : List DbEvent :=
  match c.GetDatabase n with
  | some _ => [.getDatabase n, .unlock]
  | none => [.getDatabase n, .lock, .addDatabase n, .unlock]

/-- A column definition is a normal column: neither a PRIMARY nor a FOREIGN
marker. -/
def isNormal (col : ColumnDefinition) : Bool :=
  !(col.type == ColDefType.PRIMARY) && !(col.type == ColDefType.FOREIGN)

/-- Names of the normal columns of a definition list, in declaration order. -/
def normalNames (defs : List ColumnDefinition) : List String :=
  (defs.filter isNormal).map (fun col => col.name)

/-- Number of normal columns in a definition list. -/
def normalCount (defs : List ColumnDefinition) : Nat :=
  (defs.filter isNormal).length

/-- The column objects the construction pass produces from a definition list,
starting at a given offset. -/
def buildColumns (off : Nat) : List ColumnDefinition → List Column
| [] => []
| col :: rest =>
  if isNormal col then columnOf off col :: buildColumns (off + 1) rest
  else buildColumns off rest

/-- The width rule as the specification states it: exactly 1 for the CHAR
kind; the declared variable length when the value type is VARCHAR or
VARBINARY; the type-determined fixed width otherwise. -/
def specWidth (col : ColumnDefinition) : Nat :=
  if col.type = ColDefType.CHAR then 1
  else if GetValueType col.type = ValueType.VARCHAR ∨ GetValueType col.type = ValueType.VARBINARY then col.varlen
  else GetTypeSize (GetValueType col.type)

/-- A catalog holding just the (empty) default database. -/
def exCatalog : Catalog := ⟨[⟨DEFAULT_DB_NAME, []⟩]⟩

/-- A normal column definition with all marker fields null. -/
def normalDef (n : String) (ty : ColDefType) (vl : Nat) : ColumnDefinition :=
  ⟨n, ty, vl, false, false, none, none, none⟩

/-- CREATE TABLE `t` (a INT, b VARCHAR(7), c CHAR). -/
def exTableStmt : CreateStatement :=
  ⟨.kTable, "t", false, [normalDef "a" .INT 0, normalDef "b" .VARCHAR 7, normalDef "c" .CHAR 0], "", none, false⟩

/-- The catalog after creating table `t`. -/
def exCatalogT : Catalog := (Execute exCatalog exTableStmt).2

/-- CREATE INDEX `i` ON `t` (a). -/
def exIndexStmt : CreateStatement := ⟨.kIndex, "i", false, [], "t", some ["a"], true⟩

/-- CREATE INDEX `i6` ON `t` with an empty (but present) key-attribute list. -/
def emptyAttrsStmt : CreateStatement := ⟨.kIndex, "i6", false, [], "t", some [], true⟩

/-- CREATE INDEX `i7` ON `t` with an absent (null) key-attribute list. -/
def nullAttrsStmt : CreateStatement := ⟨.kIndex, "i7", false, [], "t", none, true⟩

/-- CREATE TABLE `ft` whose single definition is a FOREIGN marker naming the
nonexistent sink table `missing`, with empty source and sink column lists. -/
def vacuousForeignStmt : CreateStatement :=
  ⟨.kTable, "ft", false, [⟨"missing", .FOREIGN, 0, false, false, none, some [], some []⟩], "", none, false⟩

/-- CREATE TABLE `pt` with a normal column and a PRIMARY marker whose
primary-key name list is absent (null). -/
def nullPrimaryStmt : CreateStatement :=
  ⟨.kTable, "pt", false, [normalDef "a" .INT 0, ⟨"", .PRIMARY, 0, false, true, none, none, none⟩], "", none, false⟩

/-- CREATE TABLE `ft2` with a FOREIGN marker whose source and sink name lists
are absent (null). -/
def nullForeignStmt : CreateStatement :=
  ⟨.kTable, "ft2", false, [⟨"x", .FOREIGN, 0, false, false, none, none, none⟩], "", none, false⟩

/-- CREATE TABLE `d` declaring two normal columns both named `amount`. -/
def dupColumnStmt : CreateStatement :=
  ⟨.kTable, "d", false, [normalDef "amount" .INT 0, normalDef "amount" .INT 0], "", none, false⟩

/-- CREATE TABLE `t` again, with the existence-guard flag set. -/
def guardStmt : CreateStatement :=
  ⟨.kTable, "t", true, [normalDef "z" .INT 0], "", none, false⟩

/-- CREATE TABLE `fp` whose PRIMARY marker references `id`, declared only
later in the column list. -/
def forwardPrimaryStmt : CreateStatement :=
  ⟨.kTable, "fp", false, [⟨"", .PRIMARY, 0, false, true, some ["id"], none, none⟩, normalDef "id" .INT 0], "", none, false⟩

/-- A FOREIGN marker used to instantiate the validation characterization. -/
def exForeignMarker : ColumnDefinition :=
  ⟨"t", .FOREIGN, 0, false, false, none, some ["src"], some ["a"]⟩

/-- A table `t` with a single INTEGER column `a` at offset 0. -/
def exTableT : Table := ⟨"t", [⟨"a", .INTEGER, 0, 4, false⟩], [], [], none⟩

/-- The default database already holding table `t`. -/
def exDbT : Database := ⟨DEFAULT_DB_NAME, [exTableT]⟩

/-- A catalog whose default database already holds table `t`. -/
def exCatalogWithT : Catalog := ⟨[exDbT]⟩

theorem executeTable_snd_or (c : Catalog) (db : Database) (stmt : CreateStatement) :
    (executeTable c db stmt).2 = c ∨ (executeTable c db stmt).1 = ExecResult.ok true := by
  unfold executeTable
  split
  · left; rfl
  · split
    · left; rfl
    · split
      · left; rfl
      · left; rfl
      · dsimp only
        split
        · left; rfl
        · right; rfl

theorem executeDatabase_snd_or (c : Catalog) (stmt : CreateStatement) :
    (executeDatabase c stmt).2 = c ∨ (executeDatabase c stmt).1 = ExecResult.ok true := by
  unfold executeDatabase
  split
  · left; rfl
  · dsimp only
    split
    · left; rfl
    · right; rfl

theorem executeIndex_snd_or (c : Catalog) (db : Database) (stmt : CreateStatement) :
    (executeIndex c db stmt).2 = c ∨ (executeIndex c db stmt).1 = ExecResult.ok true := by
  unfold executeIndex
  split
  · left; rfl
  · split
    · left; rfl
    · split
      · left; rfl
      · split
        · left; rfl
        · dsimp only
          split
          · left; rfl
          · right; rfl

theorem Execute_snd_or (c : Catalog) (stmt : CreateStatement) :
    (Execute c stmt).2 = c ∨ (Execute c stmt).1 = ExecResult.ok true := by
  unfold Execute
  split
  · left; rfl
  · rename_i db _
    split
    · exact executeTable_snd_or c db stmt
    · exact executeDatabase_snd_or c stmt
    · exact executeIndex_snd_or c db stmt

theorem Execute_eq_table (c : Catalog) (stmt : CreateStatement) (db : Database)
    (hdb : c.GetDatabase DEFAULT_DB_NAME = some db) (ht : stmt.type = CreateType.kTable) :
    Execute c stmt = executeTable c db stmt := by
  unfold Execute
  rw [hdb, ht]

theorem Execute_eq_database (c : Catalog) (stmt : CreateStatement) (db : Database)
    (hdb : c.GetDatabase DEFAULT_DB_NAME = some db) (ht : stmt.type = CreateType.kDatabase) :
    Execute c stmt = executeDatabase c stmt := by
  unfold Execute
  rw [hdb, ht]

theorem Execute_eq_index (c : Catalog) (stmt : CreateStatement) (db : Database)
    (hdb : c.GetDatabase DEFAULT_DB_NAME = some db) (ht : stmt.type = CreateType.kIndex) :
    Execute c stmt = executeIndex c db stmt := by
  unfold Execute
  rw [hdb, ht]

theorem AddColumn_true {t : Table} {col : Column} {t2 : Table}
    (h : t.AddColumn col = (true, t2)) :
    t2.columns = t.columns ++ [col] ∧ t2.name = t.name := by
  unfold Table.AddColumn at h
  split at h
  · simp at h
  · injection h with h1 h2
    subst h2
    exact ⟨rfl, rfl⟩

theorem AddConstraint_snd (t : Table) (con : Constraint) :
    (t.AddConstraint con).2.columns = t.columns ∧ (t.AddConstraint con).2.name = t.name := by
  unfold Table.AddConstraint
  split <;> exact ⟨rfl, rfl⟩

theorem AddIndex_snd (t : Table) (i : Index) :
    (t.AddIndex i).2.columns = t.columns ∧ (t.AddIndex i).2.name = t.name := by
  unfold Table.AddIndex
  split <;> exact ⟨rfl, rfl⟩

theorem AddTable_true {d : Database} {t : Table} {d2 : Database}
    (h : d.AddTable t = (true, d2)) :
    d.tables.any (fun t0 => t0.name == t.name) = false ∧
    d2 = { d with tables := d.tables ++ [t] } := by
  unfold Database.AddTable at h
  split at h
  · simp at h
  · rename_i hcond
    injection h with h1 h2
    subst h2
    exact ⟨by simpa using hcond, rfl⟩

theorem AddTable_GetTable {d : Database} {t : Table} {d2 : Database}
    (h : d.AddTable t = (true, d2)) : d2.GetTable t.name = some t := by
  obtain ⟨hany, hd2⟩ := AddTable_true h
  subst hd2
  unfold Database.GetTable
  have hnone : d.tables.find? (fun t0 => t0.name == t.name) = none := by
    rw [List.find?_eq_none]
    intro x hx
    have := List.any_eq_false.mp hany x hx
    simpa using this
  simp [List.find?_append, hnone]

theorem find?_map_set : ∀ (l : List Database) (n : String) (d d2 : Database),
    l.find? (fun x => x.name == n) = some d → d2.name = d.name →
    (l.map (fun x => if x.name == d2.name then d2 else x)).find? (fun x => x.name == n) = some d2 := by
  intro l
  induction l with
  | nil => intro n d d2 h hn; simp at h
  | cons e rest ih =>
    intro n d d2 h hn
    have hdn : d.name = n := by simpa using List.find?_some h
    cases he : (e.name == n) with
    | true =>
      have hde : d = e := by
        simp only [List.find?, he] at h
        injection h with h1
        exact h1.symm
      have hcond : (e.name == d2.name) = true := by
        rw [beq_iff_eq, hn, hde]
      have h2 : (d2.name == n) = true := by
        rw [beq_iff_eq, hn, hdn]
      simp only [List.map_cons, List.find?, hcond, if_true, h2]
    | false =>
      have h' : rest.find? (fun x => x.name == n) = some d := by
        simp only [List.find?, he] at h
        exact h
      have hne : e.name ≠ n := by simpa using he
      have hcond : (e.name == d2.name) = false := by
        simp only [beq_eq_false_iff_ne, ne_eq]
        intro hed
        exact hne (by rw [hed, hn, hdn])
      simp only [List.map_cons, List.find?, hcond, Bool.false_eq_true, if_false, he]
      exact ih n d d2 h' hn

theorem GetDatabase_SetDatabase {c : Catalog} {n : String} {d d2 : Database}
    (h : c.GetDatabase n = some d) (hn : d2.name = d.name) :
    (c.SetDatabase d2).GetDatabase n = some d2 :=
  find?_map_set c.databases n d d2 h hn

theorem columnOf_offset (off : Nat) (col : ColumnDefinition) : (columnOf off col).offset = off := rfl

theorem columnOf_name (off : Nat) (col : ColumnDefinition) : (columnOf off col).name = col.name := rfl

theorem columnOf_len (off : Nat) (col : ColumnDefinition) : (columnOf off col).len = specWidth col := by
  rcases col with ⟨n, ty, vl, nn, u, pk, fs, fk⟩
  cases ty <;> rfl

theorem buildDef_next (db : Database) (s : BuildState) (col : ColumnDefinition) (s2 : BuildState)
    (h : buildDef db s col = StepRes.next s2) :
    s2.table.columns = s.table.columns ++ (if isNormal col then [columnOf s.offset col] else []) ∧
    s2.offset = s.offset + (if isNormal col then 1 else 0) ∧
    s2.table.name = s.table.name := by
  unfold buildDef at h
  rcases col with ⟨cname, ctype, cvarlen, cnotnull, cunique, cpk, cfks, cfkk⟩
  cases ctype
  case PRIMARY =>
    dsimp only at h
    cases cpk with
    | none => cases h
    | some keys =>
      dsimp only at h
      split at h
      · cases h
      · rename_i t1 heq1
        split at h
        · cases h
        · rename_i t2 heq2
          cases h
          have e1 : t1.columns = s.table.columns ∧ t1.name = s.table.name := by
            have := congrArg Prod.snd heq1
            simp only at this
            rw [← this]
            exact AddConstraint_snd s.table _
          have e2 : t2.columns = t1.columns ∧ t2.name = t1.name := by
            have := congrArg Prod.snd heq2
            simp only at this
            rw [← this]
            exact AddIndex_snd t1 _
          simp [isNormal, e1.1, e1.2, e2.1, e2.2]
  case FOREIGN =>
    dsimp only at h
    cases cfks with
    | none => cases h
    | some srcKeys =>
      dsimp only at h
      cases cfkk with
      | none => cases h
      | some sinkKeys =>
        dsimp only at h
        split at h
        · cases h
        · rename_i sc heqsc
          split at h
          · cases h
          · rename_i t1 heq1
            cases h
            have e1 : t1.columns = s.table.columns ∧ t1.name = s.table.name := by
              have := congrArg Prod.snd heq1
              simp only at this
              rw [← this]
              exact AddConstraint_snd s.table _
            simp [isNormal, e1.1, e1.2]
  all_goals
    dsimp only at h
    split at h
    · cases h
    · rename_i t1 heq1
      cases h
      obtain ⟨e1, e2⟩ := AddColumn_true heq1
      simp [isNormal, e1, e2]

theorem buildDefs_next (db : Database) : ∀ (defs : List ColumnDefinition) (s s2 : BuildState),
    buildDefs db s defs = StepRes.next s2 →
    s2.table.columns = s.table.columns ++ buildColumns s.offset defs ∧
    s2.table.name = s.table.name := by
  intro defs
  induction defs with
  | nil =>
    intro s s2 h
    cases h
    simp [buildColumns]
  | cons col rest ih =>
    intro s s2 h
    unfold buildDefs at h
    split at h
    · rename_i s1 heq
      obtain ⟨h1, h2, h3⟩ := buildDef_next db s col s1 heq
      obtain ⟨ih1, ih2⟩ := ih s1 s2 h
      constructor
      · rw [ih1, h1, h2]
        cases hn : isNormal col with
        | true => simp [buildColumns, hn, List.append_assoc]
        | false => simp [buildColumns, hn]
      · rw [ih2, h3]
    · cases h
    · cases h

theorem buildColumns_map_offset : ∀ (defs : List ColumnDefinition) (off : Nat),
    (buildColumns off defs).map (fun c => c.offset) = List.range' off (normalCount defs) := by
  intro defs
  induction defs with
  | nil => intro off; simp [buildColumns, normalCount]
  | cons col rest ih =>
    intro off
    cases hn : isNormal col with
    | true =>
      simp only [buildColumns, hn, if_true, List.map_cons, columnOf_offset, ih,
        normalCount, List.filter_cons, List.length_cons, List.range'_succ]
    | false =>
      simp only [buildColumns, hn, Bool.false_eq_true, if_false, ih,
        normalCount, List.filter_cons]

theorem buildColumns_map_name : ∀ (defs : List ColumnDefinition) (off : Nat),
    (buildColumns off defs).map (fun c => c.name) = normalNames defs := by
  intro defs
  induction defs with
  | nil => intro off; simp [buildColumns, normalNames]
  | cons col rest ih =>
    intro off
    cases hn : isNormal col with
    | true =>
      simp only [buildColumns, hn, if_true, List.map_cons, columnOf_name, ih,
        normalNames, List.filter_cons]
    | false =>
      simp only [buildColumns, hn, Bool.false_eq_true, if_false, ih,
        normalNames, List.filter_cons]

theorem buildColumns_map_len : ∀ (defs : List ColumnDefinition) (off : Nat),
    (buildColumns off defs).map (fun c => c.len) = (defs.filter isNormal).map specWidth := by
  intro defs
  induction defs with
  | nil => intro off; simp [buildColumns]
  | cons col rest ih =>
    intro off
    cases hn : isNormal col with
    | true =>
      simp only [buildColumns, hn, if_true, List.map_cons, columnOf_len, ih,
        List.filter_cons]
    | false =>
      simp only [buildColumns, hn, Bool.false_eq_true, if_false, ih,
        List.filter_cons]

theorem executeTable_val_none (c : Catalog) (db : Database) (stmt : CreateStatement)
    (h : validateDefs db [] stmt.columns = none) :
    executeTable c db stmt = (ExecResult.ok false, c) := by
  unfold executeTable
  rw [h]

theorem executeTable_guard (c : Catalog) (db : Database) (stmt : CreateStatement)
    (cs : List String) (hv : validateDefs db [] stmt.columns = some cs)
    (hg : ((db.GetTable stmt.name).isSome && stmt.if_not_exists) = true) :
    executeTable c db stmt = (ExecResult.ok false, c) := by
  unfold executeTable
  rw [hv, if_pos hg]

theorem executeTable_buildfail (c : Catalog) (db : Database) (stmt : CreateStatement)
    (cs : List String) (hv : validateDefs db [] stmt.columns = some cs)
    (hg : ((db.GetTable stmt.name).isSome && stmt.if_not_exists) = false)
    (hb : buildDefs db (initState stmt.name) stmt.columns = StepRes.fail) :
    executeTable c db stmt = (ExecResult.ok false, c) := by
  unfold executeTable
  rw [hv, if_neg (by simp [hg]), hb]

theorem executeTable_buildub (c : Catalog) (db : Database) (stmt : CreateStatement)
    (cs : List String) (hv : validateDefs db [] stmt.columns = some cs)
    (hg : ((db.GetTable stmt.name).isSome && stmt.if_not_exists) = false)
    (hb : buildDefs db (initState stmt.name) stmt.columns = StepRes.ub) :
    executeTable c db stmt = (ExecResult.ub, c) := by
  unfold executeTable
  rw [hv, if_neg (by simp [hg]), hb]

theorem executeTable_build (c : Catalog) (db : Database) (stmt : CreateStatement)
    (cs : List String) (s : BuildState) (hv : validateDefs db [] stmt.columns = some cs)
    (hg : ((db.GetTable stmt.name).isSome && stmt.if_not_exists) = false)
    (hb : buildDefs db (initState stmt.name) stmt.columns = StepRes.next s) :
    executeTable c db stmt =
      match db.AddTable { s.table with physicalTable := some ⟨⟨s.physical_columns⟩⟩ } with
      | (false, _) => (ExecResult.ok false, c)
      | (true, db2) => (ExecResult.ok true, c.SetDatabase db2) := by
  unfold executeTable
  rw [hv, if_neg (by simp [hg]), hb]

theorem executeTable_success (c : Catalog) (db : Database) (stmt : CreateStatement)
    (h : (executeTable c db stmt).1 = ExecResult.ok true) :
    ∃ s db2, buildDefs db (initState stmt.name) stmt.columns = StepRes.next s ∧
      db.AddTable { s.table with physicalTable := some ⟨⟨s.physical_columns⟩⟩ } = (true, db2) ∧
      executeTable c db stmt = (ExecResult.ok true, c.SetDatabase db2) := by
  cases hval : validateDefs db [] stmt.columns with
  | none =>
    rw [executeTable_val_none c db stmt hval] at h
    simp at h
  | some cs =>
    cases hg : ((db.GetTable stmt.name).isSome && stmt.if_not_exists) with
    | true =>
      rw [executeTable_guard c db stmt cs hval hg] at h
      simp at h
    | false =>
      cases hb : buildDefs db (initState stmt.name) stmt.columns with
      | fail =>
        rw [executeTable_buildfail c db stmt cs hval hg hb] at h
        simp at h
      | ub =>
        rw [executeTable_buildub c db stmt cs hval hg hb] at h
        simp at h
      | next s =>
        have hrw := executeTable_build c db stmt cs s hval hg hb
        cases hadd : db.AddTable { s.table with physicalTable := some ⟨⟨s.physical_columns⟩⟩ } with
        | mk b db2 =>
          cases b with
          | false =>
            rw [hrw, hadd] at h
            simp at h
          | true =>
            refine ⟨s, db2, rfl, hadd, ?_⟩
            rw [hrw, hadd]

theorem Execute_table_success (c : Catalog) (stmt : CreateStatement)
    (ht : stmt.type = CreateType.kTable)
    (hs : (Execute c stmt).1 = ExecResult.ok true) :
    ∃ db t, ((Execute c stmt).2).GetDatabase DEFAULT_DB_NAME = some db ∧
      db.GetTable stmt.name = some t ∧
      t.columns = buildColumns 0 stmt.columns := by
  cases hdb : c.GetDatabase DEFAULT_DB_NAME with
  | none =>
    unfold Execute at hs
    rw [hdb] at hs
    simp at hs
  | some db =>
    rw [Execute_eq_table c stmt db hdb ht] at hs ⊢
    obtain ⟨s, db2, hb, hadd, heq⟩ := executeTable_success c db stmt hs
    have htab := AddTable_true hadd
    obtain ⟨hbc, hbn⟩ := buildDefs_next db stmt.columns (initState stmt.name) s hb
    have hsname : s.table.name = stmt.name := by
      rw [hbn]
      rfl
    have hscols : s.table.columns = buildColumns 0 stmt.columns := by
      rw [hbc]
      simp [initState]
    have hdb2name : db2.name = db.name := by
      rw [htab.2]
    have hget2 : (c.SetDatabase db2).GetDatabase DEFAULT_DB_NAME = some db2 :=
      GetDatabase_SetDatabase hdb hdb2name
    have hgt := AddTable_GetTable hadd
    refine ⟨db2, { s.table with physicalTable := some ⟨⟨s.physical_columns⟩⟩ }, ?_, ?_, ?_⟩
    · rw [heq]
      exact hget2
    · have hn2 : ({ s.table with physicalTable := some ⟨⟨s.physical_columns⟩⟩ } : Table).name = stmt.name := hsname
      rw [← hn2]
      exact hgt
    · exact hscols

theorem validateDef_some (db : Database) (cols cols2 : List String) (col : ColumnDefinition)
    (h : validateDef db cols col = some cols2) :
    cols2 = cols ++ (if isNormal col then [col.name] else []) := by
  unfold validateDef at h
  rcases col with ⟨cname, ctype, cvl, cnn, cu, cpk, cfs, cfk⟩
  cases ctype
  case PRIMARY =>
    dsimp only at h ⊢
    cases cpk with
    | none =>
      injection h with h1
      simp [isNormal, ← h1]
    | some keys =>
      dsimp only at h
      split at h
      · injection h with h1
        simp [isNormal, ← h1]
      · cases h
  case FOREIGN =>
    dsimp only at h ⊢
    split at h
    · injection h with h1
      simp [isNormal, ← h1]
    · cases h
  all_goals
    dsimp only at h ⊢
    split at h
    · cases h
    · injection h with h1
      simp [isNormal, ← h1]

theorem validateDefs_accum (db : Database) : ∀ (defs : List ColumnDefinition) (cols cs : List String),
    validateDefs db cols defs = some cs → cs = cols ++ normalNames defs := by
  intro defs
  induction defs with
  | nil =>
    intro cols cs h
    injection h with h1
    simp [normalNames, ← h1]
  | cons col rest ih =>
    intro cols cs h
    unfold validateDefs at h
    split at h
    · cases h
    · rename_i cols2 heq
      have h2 := validateDef_some db cols cols2 col heq
      have h3 := ih cols2 cs h
      rw [h3, h2]
      cases hn : isNormal col with
      | true => simp [normalNames, List.filter_cons, hn, List.append_assoc]
      | false => simp [normalNames, List.filter_cons, hn]

theorem validateDefs_append (db : Database) : ∀ (l1 l2 : List ColumnDefinition) (cols : List String),
    validateDefs db cols (l1 ++ l2) =
      match validateDefs db cols l1 with
      | none => none
      | some cs => validateDefs db cs l2 := by
  intro l1
  induction l1 with
  | nil => intro l2 cols; rfl
  | cons col rest ih =>
    intro l2 cols
    simp only [List.cons_append]
    cases hv : validateDef db cols col with
    | none => simp [validateDefs, hv]
    | some cols2 =>
      simp only [validateDefs, hv]
      exact ih l2 cols2

/-- C1: on a successful CREATE INDEX, Execute returns true while the logical
index registered on the target table carries a null physical index handle:
the physical index object is never constructed (the factory call at line 366
of the source is commented out and `physical_index` stays the null pointer),
contradicting the claim that Execute returns true only when the physical
index object has been constructed and attached. -/
theorem create_index_returns_true_with_null_physical :
    (Execute exCatalogT exIndexStmt).1 = ExecResult.ok true ∧
    (((((Execute exCatalogT exIndexStmt).2).GetDatabase DEFAULT_DB_NAME).bind
        (fun db => db.GetTable "t")).bind (fun t => t.GetIndex "i")).map
      (fun i => i.physicalIndex) = some none := by
  exact ⟨rfl, rfl⟩

/-- C2: any CREATE TABLE statement on which Execute returns false leaves the
catalog — in particular the owning database's table set — exactly as it was
before the call. -/
theorem create_table_failure_preserves_catalog (c : Catalog) (stmt : CreateStatement)
    (ht : stmt.type = CreateType.kTable)
    (hf : (Execute c stmt).1 = ExecResult.ok false) :
    (Execute c stmt).2 = c := by
  rcases Execute_snd_or c stmt with h | h
  · exact h
  · rw [hf] at h
    simp at h

/-- Witness for C2: the duplicate-column CREATE TABLE fails and the catalog
is unchanged. -/
theorem create_table_failure_preserves_catalog_witness :
    (Execute exCatalog dupColumnStmt).2 = exCatalog :=
  create_table_failure_preserves_catalog exCatalog dupColumnStmt rfl (by rfl)

/-- C3 counterexample: the CREATE TABLE statement whose only definition is a
FOREIGN marker naming the nonexistent sink table `missing`, with empty
source and sink column lists, is accepted — Execute returns true — although
the sink table does not exist in the database, refuting the claimed
if-and-only-if. -/
theorem foreign_marker_vacuous_accept :
    (Execute exCatalog vacuousForeignStmt).1 = ExecResult.ok true ∧
    (exCatalog.GetDatabase DEFAULT_DB_NAME).bind (fun db => db.GetTable "missing") = none := by
  exact ⟨rfl, rfl⟩

/-- C3 (amended): a FOREIGN marker passes validation iff every name in its
source list, when that list is present, is among the normal-column names
declared earlier in the statement, and for every name in its sink list, when
that list is present, the sink table named by the marker exists in the
current database and has a column of that name; an absent or empty list
imposes no check, so sink-table existence is enforced only per listed sink
column. -/
theorem foreign_marker_validation_iff (db : Database) (cols : List String) (col : ColumnDefinition)
    (hf : col.type = ColDefType.FOREIGN) :
    validateDef db cols col = some cols ↔
      ((∀ k ∈ col.foreign_key_source.getD [], k ∈ cols) ∧
       (∀ k ∈ col.foreign_key_sink.getD [],
          ∃ ft, db.GetTable col.name = some ft ∧ (ft.GetColumn k).isSome = true)) := by
  unfold validateDef
  rw [hf]
  dsimp only
  constructor
  · intro h
    split at h
    · rename_i hcond
      rw [Bool.and_eq_true] at hcond
      obtain ⟨h1, h2⟩ := hcond
      constructor
      · intro k hk
        cases hsrc : col.foreign_key_source with
        | none => rw [hsrc] at hk; simp at hk
        | some keys =>
          rw [hsrc] at h1 hk
          simp only [Option.getD_some] at hk
          have := List.all_eq_true.mp h1 k hk
          simpa using this
      · intro k hk
        cases hkk : col.foreign_key_sink with
        | none => rw [hkk] at hk; simp at hk
        | some keys =>
          rw [hkk] at h2 hk
          simp only [Option.getD_some] at hk
          have h3 := List.all_eq_true.mp h2 k hk
          cases hgt : db.GetTable col.name with
          | none => rw [hgt] at h3; simp at h3
          | some ft =>
            rw [hgt] at h3
            exact ⟨ft, rfl, by simpa using h3⟩
    · cases h
  · rintro ⟨h1, h2⟩
    have hsrc : (match col.foreign_key_source with
        | some keys => keys.all (fun k => cols.contains k)
        | none => true) = true := by
      cases hs : col.foreign_key_source with
      | none => rfl
      | some keys =>
        rw [List.all_eq_true]
        intro k hk
        have := h1 k (by rw [hs]; simpa using hk)
        simpa using this
    have hsink : (match col.foreign_key_sink with
        | some keys => keys.all (fun k =>
            match db.GetTable col.name with
            | none => false
            | some ft => (ft.GetColumn k).isSome)
        | none => true) = true := by
      cases hkk : col.foreign_key_sink with
      | none => rfl
      | some keys =>
        rw [List.all_eq_true]
        intro k hk
        obtain ⟨ft, hft, hcol⟩ := h2 k (by rw [hkk]; simpa using hk)
        rw [hft]
        exact hcol
    rw [hsrc, hsink]
    rfl

/-- Witness for the amended C3 at a concrete marker: source list `[src]`
against declared columns `[src]`, sink list `[a]` against table `t` holding
column `a`. -/
theorem foreign_marker_validation_iff_witness :
    validateDef exDbT ["src"] exForeignMarker = some ["src"] ↔
      ((∀ k ∈ exForeignMarker.foreign_key_source.getD [], k ∈ ["src"]) ∧
       (∀ k ∈ exForeignMarker.foreign_key_sink.getD [],
          ∃ ft, exDbT.GetTable exForeignMarker.name = some ft ∧ (ft.GetColumn k).isSome = true)) :=
  foreign_marker_validation_iff exDbT ["src"] exForeignMarker rfl

/-- C4: a PRIMARY marker whose (present) key list references a name that is
not among the normal columns declared earlier in the statement's column list
makes Execute return false with the catalog unchanged, even when a normal
column of that name is declared later in the list. -/
theorem primary_forward_reference_rejected (c : Catalog) (db : Database)
    (stmt : CreateStatement) (pre post : List ColumnDefinition)
    (col : ColumnDefinition) (keys : List String) (k : String)
    (hdb : c.GetDatabase DEFAULT_DB_NAME = some db)
    (ht : stmt.type = CreateType.kTable)
    (hcols : stmt.columns = pre ++ col :: post)
    (hp : col.type = ColDefType.PRIMARY)
    (hkeys : col.primary_key = some keys)
    (hk : k ∈ keys)
    (hnot : ¬ k ∈ normalNames pre) :
    Execute c stmt = (ExecResult.ok false, c) := by
  have hval : validateDefs db [] stmt.columns = none := by
    rw [hcols, validateDefs_append]
    cases hv : validateDefs db [] pre with
    | none => rfl
    | some cs =>
      have hcs : cs = normalNames pre := by
        simpa using validateDefs_accum db pre [] cs hv
      have hvd : validateDef db cs col = none := by
        unfold validateDef
        rw [hp, hkeys]
        dsimp only
        have hall : (keys.all fun kk => cs.contains kk) = false := by
          cases hba : (keys.all fun kk => cs.contains kk) with
          | false => rfl
          | true =>
            have hkc := List.all_eq_true.mp hba k hk
            rw [hcs] at hkc
            simp at hkc
            exact absurd hkc hnot
        rw [hall]
        rfl
      simp [validateDefs, hvd]
  rw [Execute_eq_table c stmt db hdb ht]
  exact executeTable_val_none c db stmt hval

/-- Witness for C4: the PRIMARY marker referencing `id`, declared only later,
is rejected with the catalog unchanged. -/
theorem primary_forward_reference_rejected_witness :
    Execute exCatalog forwardPrimaryStmt = (ExecResult.ok false, exCatalog) :=
  primary_forward_reference_rejected exCatalog ⟨DEFAULT_DB_NAME, []⟩ forwardPrimaryStmt
    [] [normalDef "id" ColDefType.INT 0]
    ⟨"", ColDefType.PRIMARY, 0, false, true, some ["id"], none, none⟩ ["id"] "id"
    rfl rfl rfl rfl rfl (by decide) (by decide)

/-- C5: on a successful CREATE TABLE declaring N normal columns, the table
registered under the statement's name carries columns whose offsets are
exactly 0, 1, ..., N-1 in declaration order; PRIMARY and FOREIGN markers
consume no offsets. -/
theorem create_table_offsets_dense (c : Catalog) (stmt : CreateStatement)
    (ht : stmt.type = CreateType.kTable)
    (hs : (Execute c stmt).1 = ExecResult.ok true) :
    ∃ db t, ((Execute c stmt).2).GetDatabase DEFAULT_DB_NAME = some db ∧
      db.GetTable stmt.name = some t ∧
      t.columns.map (fun col => col.offset) = List.range (normalCount stmt.columns) ∧
      t.columns.map (fun col => col.name) = normalNames stmt.columns := by
  obtain ⟨db, t, h1, h2, h3⟩ := Execute_table_success c stmt ht hs
  refine ⟨db, t, h1, h2, ?_, ?_⟩
  · rw [h3, buildColumns_map_offset, List.range_eq_range']
  · rw [h3, buildColumns_map_name]

/-- Witness for C5: the three-column CREATE TABLE yields offsets 0,1,2 on
columns a,b,c. -/
theorem create_table_offsets_dense_witness :
    ∃ db t, ((Execute exCatalog exTableStmt).2).GetDatabase DEFAULT_DB_NAME = some db ∧
      db.GetTable exTableStmt.name = some t ∧
      t.columns.map (fun col => col.offset) = List.range (normalCount exTableStmt.columns) ∧
      t.columns.map (fun col => col.name) = normalNames exTableStmt.columns :=
  create_table_offsets_dense exCatalog exTableStmt rfl (by rfl)

/-- C6 counterexample: a CREATE INDEX statement with an empty but present
key-attribute list is not rejected — Execute returns true — refuting the
claim that an empty key-attribute list makes Execute return false with the
index set unchanged. -/
theorem create_index_empty_attrs_accepted :
    emptyAttrsStmt.index_attrs = some [] ∧
    (Execute exCatalogT emptyAttrsStmt).1 = ExecResult.ok true := by
  exact ⟨rfl, rfl⟩

/-- C6 (amended): only an absent (null) key-attribute list is rejected by
this check: a CREATE INDEX statement whose key-attribute list is absent
makes Execute return false with the catalog — hence the target table's index
set — unchanged; an empty-but-present list is not rejected. -/
theorem create_index_null_attrs_rejected (c : Catalog) (db : Database) (stmt : CreateStatement)
    (hdb : c.GetDatabase DEFAULT_DB_NAME = some db)
    (ht : stmt.type = CreateType.kIndex)
    (ha : stmt.index_attrs = none) :
    Execute c stmt = (ExecResult.ok false, c) := by
  rw [Execute_eq_index c stmt db hdb ht]
  unfold executeIndex
  cases hg : db.GetTable stmt.table_name with
  | none => rfl
  | some table => rw [ha]

/-- Witness for the amended C6: a null key-attribute list is rejected with
the catalog unchanged. -/
theorem create_index_null_attrs_rejected_witness :
    Execute exCatalog nullAttrsStmt = (ExecResult.ok false, exCatalog) :=
  create_index_null_attrs_rejected exCatalog ⟨DEFAULT_DB_NAME, []⟩ nullAttrsStmt rfl rfl rfl

/-- C7: on a successful CREATE TABLE, each registered column's physical
width is exactly 1 when the declared kind is CHAR, the declared variable
length when the value type is VARCHAR or VARBINARY, and the type-determined
fixed width otherwise. -/
theorem create_table_column_widths (c : Catalog) (stmt : CreateStatement)
    (ht : stmt.type = CreateType.kTable)
    (hs : (Execute c stmt).1 = ExecResult.ok true) :
    ∃ db t, ((Execute c stmt).2).GetDatabase DEFAULT_DB_NAME = some db ∧
      db.GetTable stmt.name = some t ∧
      t.columns.map (fun col => col.len) = (stmt.columns.filter isNormal).map specWidth := by
  obtain ⟨db, t, h1, h2, h3⟩ := Execute_table_success c stmt ht hs
  refine ⟨db, t, h1, h2, ?_⟩
  rw [h3, buildColumns_map_len]

/-- Witness for C7: the table with INT, VARCHAR(7) and CHAR columns receives
widths 4, 7 and 1. -/
theorem create_table_column_widths_witness :
    ∃ db t, ((Execute exCatalog exTableStmt).2).GetDatabase DEFAULT_DB_NAME = some db ∧
      db.GetTable exTableStmt.name = some t ∧
      t.columns.map (fun col => col.len) = (exTableStmt.columns.filter isNormal).map specWidth :=
  create_table_column_widths exCatalog exTableStmt rfl (by rfl)

/-- C8: with the existence-guard flag set and the target name already naming
a table in the default database, Execute returns false and the catalog —
including the previously existing table — is unchanged. -/
theorem create_table_existence_guard (c : Catalog) (db : Database)
    (stmt : CreateStatement) (t0 : Table)
    (hdb : c.GetDatabase DEFAULT_DB_NAME = some db)
    (ht : stmt.type = CreateType.kTable)
    (hg : stmt.if_not_exists = true)
    (hex : db.GetTable stmt.name = some t0) :
    Execute c stmt = (ExecResult.ok false, c) := by
  rw [Execute_eq_table c stmt db hdb ht]
  cases hval : validateDefs db [] stmt.columns with
  | none => exact executeTable_val_none c db stmt hval
  | some cs =>
    refine executeTable_guard c db stmt cs hval ?_
    rw [hex, hg]
    rfl

/-- Witness for C8: re-creating table `t` with the guard flag set fails and
leaves the catalog unchanged. -/
theorem create_table_existence_guard_witness :
    Execute exCatalogWithT guardStmt = (ExecResult.ok false, exCatalogWithT) :=
  create_table_existence_guard exCatalogWithT exDbT guardStmt exTableT rfl rfl rfl rfl

/-- C9: the kDatabase branch performs the existence check of the proposed
name outside the critical section: the check is the very first registry
event of every trace, preceding any lock acquisition, so the check and the
insertion are not one critical section under the registry lock as the claim
requires (and on the name-exists path the code even unlocks a lock it never
acquired). -/
theorem create_database_check_outside_lock (c : Catalog) (n : String) :
    (createDatabaseTrace c n).head? = some (DbEvent.getDatabase n) := by
  unfold createDatabaseTrace
  cases c.GetDatabase n <;> rfl

/-- C10: a PRIMARY marker with an absent key-name list and a FOREIGN marker
with absent source and sink lists both pass the null-guarded validation
pass, and the construction pass then dereferences the absent list
unconditionally: Execute reaches undefined behavior, so presence of the
key-name lists is an unchecked precondition of Execute, not a validated
input. -/
theorem null_key_lists_unchecked :
    (validateDefs ⟨DEFAULT_DB_NAME, []⟩ [] nullPrimaryStmt.columns).isSome = true ∧
    Execute exCatalog nullPrimaryStmt = (ExecResult.ub, exCatalog) ∧
    (validateDefs ⟨DEFAULT_DB_NAME, []⟩ [] nullForeignStmt.columns).isSome = true ∧
    Execute exCatalog nullForeignStmt = (ExecResult.ub, exCatalog) := by
  exact ⟨rfl, rfl, rfl, rfl⟩

end NStore
